import Mathlib

/-!
Verification of the MagikEvents PhotoBooth frame-store, composer and
gallery logic.  The definitions below are a shallow embedding of the
JavaScript sources:

* `src/js/data-manager.js` — `saveImage`, `loadImages`, `saveFrameImage`,
  `loadActiveFrameImage`, `getActiveFramePreview`;
* `src/js/image-processor.js` (first, authoritative variant) —
  `processImages`, `waitForImageLoad`, `reset`, `getSettings`.

Firebase snapshots are modelled as association lists in key-enumeration
order (`Object.keys` order); `push` appends at the end, matching the
chronological ordering of Firebase push keys.  JavaScript numbers that the
code only ever treats as (server) timestamps are modelled as `Nat`
(a missing `uploadedAt` and the JS `|| 0` default are both modelled as the
value `0`, which is exactly what the code computes with).  Numbers that
flow through the canvas arithmetic are modelled as `ℚ`.
-/

/-- A record of the `frame-images` collection: `{imageData, uploadedAt,
type, active}` as written by `saveFrameImage` in `data-manager.js`. -/
structure FrameRecord where
  imageData : String
  uploadedAt : Nat
  type : String
  active : Bool
  deriving DecidableEq, Repr

/-- A snapshot of the `frame-images` collection: key/record pairs in
key-enumeration order. -/
abbrev FrameDB := List (String × FrameRecord)

/-- The record that `saveFrameImage` pushes:
`{imageData, uploadedAt: serverTimestamp(), type: 'frame', active: true}`. -/
def mkFrameRecord (raster : String) (t : Nat) : FrameRecord :=
  { imageData := raster, uploadedAt := t, type := "frame", active := true }

/-- The `Object.keys(data).forEach` loop of `loadActiveFrameImage`
(data-manager.js lines 263-268): each record with `active === true`
overwrites the accumulator, so the last active record in key order wins. -/
def activeFold (data : FrameDB) : Option FrameRecord :=
  data.foldl (fun acc p => if p.2.active then some p.2 else acc) none

/-- The fallback loop of `loadActiveFrameImage` (lines 276-283): keeps the
first record whose `uploadedAt` strictly exceeds the running maximum,
starting from `mostRecentTime = 0`. -/
def mostRecentFold (data : FrameDB) : Option FrameRecord × Nat :=
  data.foldl
    (fun acc p => if acc.2 < p.2.uploadedAt then (some p.2, p.2.uploadedAt) else acc)
    (none, 0)

/-- `loadActiveFrameImage` of data-manager.js (lines 245-303): on an
existing snapshot, first look for a record with `active === true`
(last one in key order wins); failing that take the record with the
greatest positive `uploadedAt`; return its `imageData`, or `null` when
nothing was selected or the snapshot does not exist. -/
def loadActiveFrameImage (data : FrameDB) : Option String :=
  if data.isEmpty then none
  else
    match activeFold data with
    | some r => some r.imageData
    | none =>
      match (mostRecentFold data).1 with
      | some r => some r.imageData
      | none => none

/-- The value `getActiveFramePreview` (data-manager.js lines 310-362)
passes to its callback for one snapshot: the same selection rule,
`callback(activeFrame ? activeFrame.imageData : null)`. -/
def getActiveFramePreviewValue (data : FrameDB) : Option String :=
  if data.isEmpty then none
  else
    match activeFold data with
    | some r => some r.imageData
    | none => (mostRecentFold data).1.map (fun r => r.imageData)

/-- `saveFrameImage` of data-manager.js (lines 195-239), run to completion
with no interleaving writer: set `active := false` on every existing
record (the bulk `update`), then push the new record with `active: true`
and the fresh server timestamp `t` under the fresh key `newKey`. -/
def saveFrameImage (data : FrameDB) (raster : String) (t : Nat) (newKey : String) :
    FrameDB :=
  (data.map (fun p => (p.1, { p.2 with active := false }))) ++
    [(newKey, mkFrameRecord raster t)]

/-! ### Helper lemmas about the two folds -/

/-- The active-frame loop computes the last record in key order whose
`active` flag is set (expressed via `find?` on the reversed list). -/
theorem activeFold_go (l : FrameDB) :
    ∀ a : Option FrameRecord,
      l.foldl (fun acc p => if p.2.active then some p.2 else acc) a =
        match l.reverse.find? (fun p => p.2.active) with
        | some q => some q.2
        | none => a := by
  induction l with
  | nil => intro a; rfl
  | cons p t ih =>
    intro a
    have hrev : (p :: t).reverse = t.reverse ++ [p] := by simp
    rw [List.foldl_cons, ih, hrev, List.find?_append]
    cases hf : t.reverse.find? (fun p => p.2.active) with
    | some q => simp [Option.orElse]
    | none =>
      cases hp : p.2.active with
      | true => simp [Option.orElse, List.find?, hp]
      | false => simp [Option.orElse, List.find?, hp]

theorem activeFold_eq_find (data : FrameDB) :
    activeFold data =
      match data.reverse.find? (fun p => p.2.active) with
      | some q => some q.2
      | none => none :=
  activeFold_go data none

/-- Characterisation of the most-recent loop: either nothing beat the
initial accumulator (and every `uploadedAt` in the list is bounded by it),
or the result is a maximal record whose timestamp strictly exceeds the
initial bound. -/
theorem mostRecentFold_go (l : FrameDB) :
    ∀ a : Option FrameRecord × Nat,
      (l.foldl
          (fun acc p =>
            if acc.2 < p.2.uploadedAt then (some p.2, p.2.uploadedAt) else acc) a = a
        ∧ ∀ p ∈ l, p.2.uploadedAt ≤ a.2)
      ∨ (∃ p ∈ l,
          l.foldl
            (fun acc p =>
              if acc.2 < p.2.uploadedAt then (some p.2, p.2.uploadedAt) else acc) a =
            (some p.2, p.2.uploadedAt)
          ∧ a.2 < p.2.uploadedAt
          ∧ ∀ q ∈ l, q.2.uploadedAt ≤ p.2.uploadedAt) := by
  induction l with
  | nil => intro a; left; exact ⟨rfl, by simp⟩
  | cons p t ih =>
    intro a
    rw [List.foldl_cons]
    by_cases h : a.2 < p.2.uploadedAt
    · rw [if_pos h]
      rcases ih (some p.2, p.2.uploadedAt) with ⟨heq, hb⟩ | ⟨q, hq, heq, hlt, hb⟩
      · right
        refine ⟨p, List.mem_cons_self _ _, heq, h, ?_⟩
        intro q hq
        rcases List.mem_cons.mp hq with rfl | hq
        · exact le_refl _
        · exact hb q hq
      · right
        refine ⟨q, List.mem_cons_of_mem _ hq, heq, lt_trans h hlt, ?_⟩
        intro r hr
        rcases List.mem_cons.mp hr with rfl | hr
        · exact le_of_lt hlt
        · exact hb r hr
    · rw [if_neg h]
      push_neg at h
      rcases ih a with ⟨heq, hb⟩ | ⟨q, hq, heq, hlt, hb⟩
      · left
        refine ⟨heq, ?_⟩
        intro q hq
        rcases List.mem_cons.mp hq with rfl | hq
        · exact h
        · exact hb q hq
      · right
        refine ⟨q, List.mem_cons_of_mem _ hq, heq, hlt, ?_⟩
        intro r hr
        rcases List.mem_cons.mp hr with rfl | hr
        · exact le_trans h (le_of_lt hlt)
        · exact hb r hr

theorem mostRecentFold_spec (data : FrameDB) :
    (mostRecentFold data = (none, 0) ∧ ∀ p ∈ data, p.2.uploadedAt = 0)
    ∨ (∃ p ∈ data,
        mostRecentFold data = (some p.2, p.2.uploadedAt)
        ∧ 0 < p.2.uploadedAt
        ∧ ∀ q ∈ data, q.2.uploadedAt ≤ p.2.uploadedAt) := by
  rcases mostRecentFold_go data (none, 0) with ⟨heq, hb⟩ | ⟨p, hp, heq, hlt, hb⟩
  · left
    exact ⟨heq, fun p hp => Nat.le_zero.mp (hb p hp)⟩
  · right
    exact ⟨p, hp, heq, hlt, hb⟩

/-! ### Frame-store claim theorems -/

/-- Claim C1 (counterexample to the claim as stated): the one-record
collection whose record is inactive with `uploadedAt = 0` is non-empty and
has a record of maximal `uploadedAt`, yet `loadActiveFrameImage` reports
absent instead of that record's raster, because the fallback loop only
accepts a strictly positive timestamp. -/
theorem loadActiveFrameImage_claim_counterexample :
    ¬([("k", (⟨"img", 0, "frame", false⟩ : FrameRecord))] = ([] : FrameDB))
    ∧ (∀ p ∈ [("k", (⟨"img", 0, "frame", false⟩ : FrameRecord))], p.2.active = false)
    ∧ (∀ q ∈ [("k", (⟨"img", 0, "frame", false⟩ : FrameRecord))],
        q.2.uploadedAt ≤ (⟨"img", 0, "frame", false⟩ : FrameRecord).uploadedAt)
    ∧ loadActiveFrameImage [("k", (⟨"img", 0, "frame", false⟩ : FrameRecord))] = none
    ∧ (none : Option String) ≠ some (⟨"img", 0, "frame", false⟩ : FrameRecord).imageData := by
  refine ⟨by simp, by decide, by decide, by decide, by decide⟩

/-- Claim C1 (amended): `loadActiveFrameImage` returns absent on the empty
collection; the raster of an active record when one exists; otherwise the
raster of a record of maximal `uploadedAt` provided that maximum is
positive; and absent when no record is active and every `uploadedAt` is 0
(falsy). -/
theorem loadActiveFrameImage_selection_amended (data : FrameDB) :
    (data = [] → loadActiveFrameImage data = none)
    ∧ ((∃ p ∈ data, p.2.active = true) →
        ∃ q ∈ data, q.2.active = true ∧ loadActiveFrameImage data = some q.2.imageData)
    ∧ ((∀ p ∈ data, p.2.active = false) → (∃ p ∈ data, 0 < p.2.uploadedAt) →
        ∃ p ∈ data, loadActiveFrameImage data = some p.2.imageData
          ∧ ∀ q ∈ data, q.2.uploadedAt ≤ p.2.uploadedAt)
    ∧ ((∀ p ∈ data, p.2.active = false) → (∀ p ∈ data, p.2.uploadedAt = 0) →
        loadActiveFrameImage data = none) := by
  refine ⟨fun h => by subst h; rfl, ?_, ?_, ?_⟩
  · rintro ⟨p, hp, hact⟩
    have hne : ¬(data.isEmpty = true) := by
      cases data with
      | nil => cases hp
      | cons x t => simp
    cases hf : data.reverse.find? (fun p => p.2.active) with
    | none =>
      exfalso
      have := List.find?_eq_none.mp hf p (List.mem_reverse.mpr hp)
      simp [hact] at this
    | some q =>
      have hqmem : q ∈ data := List.mem_reverse.mp (List.mem_of_find?_eq_some hf)
      have hqact : q.2.active = true := by
        simpa using List.find?_some hf
      refine ⟨q, hqmem, hqact, ?_⟩
      rw [loadActiveFrameImage, if_neg hne, activeFold_eq_find, hf]
  · intro hno hpos
    have hact : activeFold data = none := by
      rw [activeFold_eq_find]
      have : data.reverse.find? (fun p => p.2.active) = none := by
        rw [List.find?_eq_none]
        intro x hx
        simp [hno x (List.mem_reverse.mp hx)]
      rw [this]
    rcases mostRecentFold_spec data with ⟨_, hall⟩ | ⟨p, hp, heq, _, hb⟩
    · exfalso
      rcases hpos with ⟨p, hp, hppos⟩
      rw [hall p hp] at hppos
      exact lt_irrefl 0 hppos
    · have hne : ¬(data.isEmpty = true) := by
        cases data with
        | nil => cases hp
        | cons x t => simp
      refine ⟨p, hp, ?_, hb⟩
      rw [loadActiveFrameImage, if_neg hne, hact, heq]
  · intro hno hzero
    cases data with
    | nil => rfl
    | cons x t =>
      have hact : activeFold (x :: t) = none := by
        rw [activeFold_eq_find]
        have : (x :: t).reverse.find? (fun p => p.2.active) = none := by
          rw [List.find?_eq_none]
          intro y hy
          simp [hno y (List.mem_reverse.mp hy)]
        rw [this]
      rcases mostRecentFold_spec (x :: t) with ⟨heq, _⟩ | ⟨p, hp, _, hppos, _⟩
      · rw [loadActiveFrameImage, if_neg (by simp), hact, heq]
      · exfalso
        rw [hzero p hp] at hppos
        exact lt_irrefl 0 hppos

/-- Witness for the amended C1 theorem: the four branches evaluated on
concrete one-record collections. -/
theorem loadActiveFrameImage_selection_amended_witness :
    loadActiveFrameImage [] = none
    ∧ loadActiveFrameImage [("k", (⟨"a", 3, "frame", true⟩ : FrameRecord))] = some "a"
    ∧ loadActiveFrameImage [("k", (⟨"b", 5, "frame", false⟩ : FrameRecord))] = some "b"
    ∧ loadActiveFrameImage [("k", (⟨"c", 0, "frame", false⟩ : FrameRecord))] = none := by
  refine ⟨(loadActiveFrameImage_selection_amended []).1 rfl, ?_, ?_, ?_⟩
  · rcases (loadActiveFrameImage_selection_amended
        [("k", (⟨"a", 3, "frame", true⟩ : FrameRecord))]).2.1
        ⟨("k", ⟨"a", 3, "frame", true⟩), by simp, rfl⟩ with ⟨q, hq, _, hres⟩
    rw [List.mem_singleton.mp hq] at hres
    exact hres
  · rcases (loadActiveFrameImage_selection_amended
        [("k", (⟨"b", 5, "frame", false⟩ : FrameRecord))]).2.2.1
        (by decide) ⟨("k", ⟨"b", 5, "frame", false⟩), by simp, by decide⟩ with
      ⟨p, hp, hres, _⟩
    rw [List.mem_singleton.mp hp] at hres
    exact hres
  · exact (loadActiveFrameImage_selection_amended
      [("k", (⟨"c", 0, "frame", false⟩ : FrameRecord))]).2.2.2 (by decide) (by decide)

/-- Claim C10: whenever at least one record is active (in particular when
a concurrent publish left several active), both `loadActiveFrameImage` and
the `getActiveFramePreview` callback value return the raster of the last
active record in key-enumeration order, ignoring `uploadedAt`; the
max-`uploadedAt` fallback is consulted only when no record is active. -/
theorem frameSelectors_last_active_in_key_order (data : FrameDB)
    (h : ∃ p ∈ data, p.2.active = true) :
    loadActiveFrameImage data =
      (data.reverse.find? (fun p => p.2.active)).map (fun p => p.2.imageData)
    ∧ getActiveFramePreviewValue data =
      (data.reverse.find? (fun p => p.2.active)).map (fun p => p.2.imageData) := by
  rcases h with ⟨p, hp, hact⟩
  have hne : ¬(data.isEmpty = true) := by
    cases data with
    | nil => cases hp
    | cons x t => simp
  cases hf : data.reverse.find? (fun p => p.2.active) with
  | none =>
    exfalso
    have := List.find?_eq_none.mp hf p (List.mem_reverse.mpr hp)
    simp [hact] at this
  | some q =>
    constructor
    · rw [loadActiveFrameImage, if_neg hne, activeFold_eq_find, hf]
      rfl
    · rw [getActiveFramePreviewValue, if_neg hne, activeFold_eq_find, hf]
      rfl

/-- Witness for C10: two active records where the earlier key has the much
larger `uploadedAt`; both selectors still return the raster of the last
active record in key order. -/
theorem frameSelectors_last_active_witness :
    loadActiveFrameImage
        [("a", (⟨"ra", 999, "frame", true⟩ : FrameRecord)),
         ("b", (⟨"rb", 1, "frame", true⟩ : FrameRecord))] = some "rb"
    ∧ getActiveFramePreviewValue
        [("a", (⟨"ra", 999, "frame", true⟩ : FrameRecord)),
         ("b", (⟨"rb", 1, "frame", true⟩ : FrameRecord))] = some "rb" := by
  have h := frameSelectors_last_active_in_key_order
    [("a", (⟨"ra", 999, "frame", true⟩ : FrameRecord)),
     ("b", (⟨"rb", 1, "frame", true⟩ : FrameRecord))]
    ⟨("b", ⟨"rb", 1, "frame", true⟩), by simp, rfl⟩
  exact ⟨h.1.trans (by decide), h.2.trans (by decide)⟩

/-- Claim C2: after `saveFrameImage` completes with no interleaving
writer, the newly pushed record is the only one with `active = true`,
every previously existing record is present deactivated; and the A-then-B
scenario: publishing A (t=100) then B (t=200) makes `loadActiveFrameImage`
return B's raster while A's record shows `active = false`. -/
theorem saveFrameImage_single_active (data : FrameDB) (raster : String) (t : Nat)
    (newKey : String) (dataA : FrameDB) (rA rB kA kB : String) :
    (∀ p ∈ saveFrameImage data raster t newKey,
        p.2.active = true → p = (newKey, mkFrameRecord raster t))
    ∧ (newKey, mkFrameRecord raster t) ∈ saveFrameImage data raster t newKey
    ∧ (mkFrameRecord raster t).active = true
    ∧ ((saveFrameImage data raster t newKey).filter (fun p => p.2.active)).length = 1
    ∧ (∀ q ∈ data, (q.1, { q.2 with active := false }) ∈ saveFrameImage data raster t newKey)
    ∧ loadActiveFrameImage (saveFrameImage (saveFrameImage dataA rA 100 kA) rB 200 kB)
        = some rB
    ∧ (kA, (⟨rA, 100, "frame", false⟩ : FrameRecord)) ∈
        saveFrameImage (saveFrameImage dataA rA 100 kA) rB 200 kB := by
  refine ⟨?_, ?_, rfl, ?_, ?_, ?_, ?_⟩
  · intro p hp hact
    rcases List.mem_append.mp hp with hmem | hmem
    · exfalso
      rcases List.mem_map.mp hmem with ⟨q, _, rfl⟩
      simp at hact
    · simpa using List.mem_singleton.mp hmem
  · exact List.mem_append_right _ (List.mem_singleton.mpr rfl)
  · rw [saveFrameImage, List.filter_append]
    have h1 : (data.map (fun p => (p.1, { p.2 with active := false }))).filter
        (fun p => p.2.active) = [] := by
      rw [List.filter_eq_nil_iff]
      intro p hp
      rcases List.mem_map.mp hp with ⟨q, _, rfl⟩
      simp
    rw [h1]
    rfl
  · intro q hq
    exact List.mem_append_left _ (List.mem_map.mpr ⟨q, hq, rfl⟩)
  · have hne : ¬((saveFrameImage (saveFrameImage dataA rA 100 kA) rB 200 kB).isEmpty
        = true) := by
      rw [saveFrameImage]
      simp
    rw [loadActiveFrameImage, if_neg hne, activeFold_eq_find]
    have hrev : (saveFrameImage (saveFrameImage dataA rA 100 kA) rB 200 kB).reverse =
        (kB, mkFrameRecord rB 200) ::
          ((saveFrameImage dataA rA 100 kA).map
            (fun p => (p.1, { p.2 with active := false }))).reverse := by
      rw [saveFrameImage]
      simp
    rw [hrev, List.find?_cons_of_pos _ (by rfl)]
    rfl
  · have hA : (kA, mkFrameRecord rA 100) ∈ saveFrameImage dataA rA 100 kA :=
      List.mem_append_right _ (List.mem_singleton.mpr rfl)
    exact List.mem_append_left _ (List.mem_map.mpr ⟨(kA, mkFrameRecord rA 100), hA, rfl⟩)

/-- Witness for C2: concrete evaluation — publishing over a collection
with one active record leaves exactly one active record, and the concrete
A-then-B scenario returns B's raster with A deactivated. -/
theorem saveFrameImage_single_active_witness :
    ((saveFrameImage [("x", (⟨"old", 5, "frame", true⟩ : FrameRecord))] "new" 7 "n").filter
        (fun p => p.2.active)).length = 1
    ∧ loadActiveFrameImage (saveFrameImage (saveFrameImage [] "ra" 100 "a") "rb" 200 "b")
        = some "rb"
    ∧ ("a", (⟨"ra", 100, "frame", false⟩ : FrameRecord)) ∈
        saveFrameImage (saveFrameImage [] "ra" 100 "a") "rb" 200 "b" := by
  have h := saveFrameImage_single_active
    [("x", (⟨"old", 5, "frame", true⟩ : FrameRecord))] "new" 7 "n" [] "ra" "rb" "a" "b"
  exact ⟨h.2.2.2.1, h.2.2.2.2.2.1, h.2.2.2.2.2.2⟩

/-! ### Image composer (image-processor.js, first variant) -/

/-- An in-memory image as the composer sees it: its reported dimensions
(`img.width`, `img.height`). -/
structure Img where
  width : ℚ
  height : ℚ
  deriving DecidableEq, Repr

/-- The `ImageProcessor` state: `targetImage` (frame overlay),
`backgroundImage` (user photo), and the three transform parameters with
constructor defaults `zoomLevel = 100`, `xPosition = 0`, `yPosition = 0`. -/
structure ComposerState where
  targetImage : Option Img
  backgroundImage : Option Img
  zoomLevel : ℚ
  xPosition : ℚ
  yPosition : ℚ
  deriving DecidableEq, Repr

/-- `reset()` of image-processor.js (lines 171-176): transform parameters
back to defaults and the background cleared; `targetImage` untouched. -/
def reset (st : ComposerState) : ComposerState :=
  { st with zoomLevel := 100, xPosition := 0, yPosition := 0, backgroundImage := none }

/-- The `{zoom, xPosition, yPosition}` snapshot of `getSettings()`
(image-processor.js lines 507-513). -/
structure Settings where
  zoom : ℚ
  xPosition : ℚ
  yPosition : ℚ
  deriving DecidableEq, Repr

def getSettings (st : ComposerState) : Settings :=
  { zoom := st.zoomLevel, xPosition := st.xPosition, yPosition := st.yPosition }

/-- `waitForImageLoad(img, maxWaitMs)` (image-processor.js lines 331-396)
once the bounded wait has elapsed: every resolution path yields `true`
exactly when the image exists and reports positive width and height, and
`false` otherwise (timers are abstracted away; dimensions are the final
ones the image reports). -/
def waitForImageLoad (img : Option Img) (_maxWaitMs : ℚ) : Bool :=
  match img with
  | none => false
  | some i => decide (0 < i.width) && decide (0 < i.height)

/-- The scale/pan arithmetic of `processImages` (image-processor.js lines
470-482), verbatim. -/
structure Layout where
  finalScale : ℚ
  scaledWidth : ℚ
  scaledHeight : ℚ
  offsetX : ℚ
  offsetY : ℚ
  deriving DecidableEq, Repr

def computeLayout (cw ch : ℚ) (bg : Img) (zoom x y : ℚ) : Layout :=
  let scaleX := cw / bg.width
  let scaleY := ch / bg.height
  let baseScale := max scaleX scaleY
  let finalScale := baseScale * (zoom / 100)
  let scaledWidth := bg.width * finalScale
  let scaledHeight := bg.height * finalScale
  let baseOffsetX := (cw - scaledWidth) / 2
  let baseOffsetY := (ch - scaledHeight) / 2
  let maxOffsetX := max 0 ((scaledWidth - cw) / 2)
  let maxOffsetY := max 0 ((scaledHeight - ch) / 2)
  { finalScale := finalScale
    scaledWidth := scaledWidth
    scaledHeight := scaledHeight
    offsetX := baseOffsetX + (x / 100) * maxOffsetX
    offsetY := baseOffsetY + (y / 100) * maxOffsetY }

/-- One canvas-2d call issued by `processImages`. -/
inductive DrawOp where
  | clear (x y w h : ℚ)
  | draw (img : Img) (x y w h : ℚ)
  deriving DecidableEq, Repr

/-- The output of a successful `processImages` run: the computed layout
and the drawing calls, in order (clear, background, frame). -/
structure Composite where
  layout : Layout
  ops : List DrawOp
  deriving DecidableEq, Repr

/-- `processImages` of image-processor.js (lines 402-501).  `fetchedTarget`
is the image that the `loadTargetImage`/`createDefaultFrame` calls would
install when `targetImage` is still null (that asynchronous load is out of
scope of the claims, which exercise states with the images already set).
The canvas and its 2d context are available (the fatal environment errors
of lines 446-453 are not modelled); `cw`/`ch` are the
`qualitySettings.finalWidth/finalHeight` (default 1200/1800). -/
def processImages (cw ch : ℚ) (st : ComposerState) (fetchedTarget : Img) :
    Except String Composite :=
  match st.backgroundImage with
  | none => .error "Missing background image. Please capture a photo first."
  | some bg =>
    let target := st.targetImage.getD fetchedTarget
    if !(waitForImageLoad (some target) 5000) then
      .error "Frame image failed to load. Please wait a moment and try again, or refresh the page."
    else if !(waitForImageLoad (some bg) 5000) then
      .error "Background image failed to load. Please capture the photo again."
    else
      let l := computeLayout cw ch bg st.zoomLevel st.xPosition st.yPosition
      .ok { layout := l
            ops := [DrawOp.clear 0 0 cw ch,
                    DrawOp.draw bg l.offsetX l.offsetY l.scaledWidth l.scaledHeight,
                    DrawOp.draw target 0 0 cw ch] }

/-! ### Composer claim theorems -/

/-- Claim C3: for a background with positive dimensions (and a decodable
frame), `processImages` draws the background with
`finalScale = max(cw/bgW, ch/bgH) * (zoom/100)` at
`offsetX = (cw - scaledW)/2 + (x/100) * max 0 ((scaledW - cw)/2)` and
symmetrically for Y; with zoom 100 and positions 0 the background is
centered exactly. -/
theorem processImages_layout_formulas (cw ch : ℚ) (st : ComposerState) (ft bg tg : Img)
    (hbg : st.backgroundImage = some bg) (htg : st.targetImage = some tg)
    (hbw : 0 < bg.width) (hbh : 0 < bg.height)
    (htw : 0 < tg.width) (hth : 0 < tg.height) :
    ∃ c : Composite, processImages cw ch st ft = .ok c
      ∧ c.layout.finalScale = max (cw / bg.width) (ch / bg.height) * (st.zoomLevel / 100)
      ∧ c.layout.scaledWidth = bg.width * c.layout.finalScale
      ∧ c.layout.scaledHeight = bg.height * c.layout.finalScale
      ∧ c.layout.offsetX = (cw - c.layout.scaledWidth) / 2
          + (st.xPosition / 100) * max 0 ((c.layout.scaledWidth - cw) / 2)
      ∧ c.layout.offsetY = (ch - c.layout.scaledHeight) / 2
          + (st.yPosition / 100) * max 0 ((c.layout.scaledHeight - ch) / 2)
      ∧ DrawOp.draw bg c.layout.offsetX c.layout.offsetY c.layout.scaledWidth
          c.layout.scaledHeight ∈ c.ops
      ∧ (st.zoomLevel = 100 → st.xPosition = 0 → st.yPosition = 0 →
          c.layout.offsetX = (cw - c.layout.scaledWidth) / 2
          ∧ c.layout.offsetY = (ch - c.layout.scaledHeight) / 2) := by
  have hT : waitForImageLoad (some tg) 5000 = true := by
    simp [waitForImageLoad, htw, hth]
  have hB : waitForImageLoad (some bg) 5000 = true := by
    simp [waitForImageLoad, hbw, hbh]
  refine ⟨{ layout := computeLayout cw ch bg st.zoomLevel st.xPosition st.yPosition
            ops := [DrawOp.clear 0 0 cw ch,
                    DrawOp.draw bg
                      (computeLayout cw ch bg st.zoomLevel st.xPosition st.yPosition).offsetX
                      (computeLayout cw ch bg st.zoomLevel st.xPosition st.yPosition).offsetY
                      (computeLayout cw ch bg st.zoomLevel st.xPosition st.yPosition).scaledWidth
                      (computeLayout cw ch bg st.zoomLevel st.xPosition st.yPosition).scaledHeight,
                    DrawOp.draw tg 0 0 cw ch] },
    ?_, rfl, rfl, rfl, rfl, rfl, ?_, ?_⟩
  · simp [processImages, hbg, htg, hT, hB]
  · simp
  · intro hz hx hy
    constructor
    · simp [computeLayout, hx]
    · simp [computeLayout, hy]

/-- Witness for C3: a 600x900 background on the 1200x1800 canvas at
defaults. -/
theorem processImages_layout_formulas_witness :
    ∃ c : Composite,
      processImages 1200 1800
        { targetImage := some ⟨1200, 1800⟩, backgroundImage := some ⟨600, 900⟩,
          zoomLevel := 100, xPosition := 0, yPosition := 0 } ⟨1, 1⟩ = .ok c
      ∧ c.layout.finalScale = max ((1200 : ℚ) / 600) ((1800 : ℚ) / 900) * (100 / 100)
      ∧ c.layout.scaledWidth = 600 * c.layout.finalScale
      ∧ c.layout.scaledHeight = 900 * c.layout.finalScale
      ∧ c.layout.offsetX = (1200 - c.layout.scaledWidth) / 2
          + (0 / 100) * max 0 ((c.layout.scaledWidth - 1200) / 2)
      ∧ c.layout.offsetY = (1800 - c.layout.scaledHeight) / 2
          + (0 / 100) * max 0 ((c.layout.scaledHeight - 1800) / 2)
      ∧ DrawOp.draw ⟨600, 900⟩ c.layout.offsetX c.layout.offsetY c.layout.scaledWidth
          c.layout.scaledHeight ∈ c.ops
      ∧ ((100 : ℚ) = 100 → (0 : ℚ) = 0 → (0 : ℚ) = 0 →
          c.layout.offsetX = (1200 - c.layout.scaledWidth) / 2
          ∧ c.layout.offsetY = (1800 - c.layout.scaledHeight) / 2) := by
  exact processImages_layout_formulas 1200 1800
    { targetImage := some ⟨1200, 1800⟩, backgroundImage := some ⟨600, 900⟩,
      zoomLevel := 100, xPosition := 0, yPosition := 0 } ⟨1, 1⟩ ⟨600, 900⟩ ⟨1200, 1800⟩
    rfl rfl (by norm_num) (by norm_num) (by norm_num) (by norm_num)

/-- Claim C4: when the scaled background exactly fits the canvas width
(`scaledWidth = canvasWidth`), the computed `offsetX` of the
`processImages` layout is the same for every `xPosition`, and symmetrically
for Y — pan is a no-op at exact fit. -/
theorem computeLayout_pan_noop (cw ch : ℚ) (bg : Img) (zoom x x2 y y2 : ℚ) :
    ((computeLayout cw ch bg zoom x y).scaledWidth = cw →
      (computeLayout cw ch bg zoom x y).offsetX =
        (computeLayout cw ch bg zoom x2 y2).offsetX)
    ∧ ((computeLayout cw ch bg zoom x y).scaledHeight = ch →
      (computeLayout cw ch bg zoom x y).offsetY =
        (computeLayout cw ch bg zoom x2 y2).offsetY) := by
  constructor
  · intro h
    simp only [computeLayout] at h ⊢
    rw [h]
    simp
  · intro h
    simp only [computeLayout] at h ⊢
    rw [h]
    simp

/-- Witness for C4: a background with the canvas's aspect ratio at zoom
100 fits exactly; offsets agree between xPosition 50 / yPosition 0 and
xPosition -70 / yPosition 25. -/
theorem computeLayout_pan_noop_witness :
    (computeLayout 100 150 ⟨100, 150⟩ 100 50 0).offsetX =
      (computeLayout 100 150 ⟨100, 150⟩ 100 (-70) 25).offsetX
    ∧ (computeLayout 100 150 ⟨100, 150⟩ 100 50 0).offsetY =
      (computeLayout 100 150 ⟨100, 150⟩ 100 (-70) 25).offsetY :=
  ⟨(computeLayout_pan_noop 100 150 ⟨100, 150⟩ 100 50 (-70) 0 25).1
      (by norm_num [computeLayout]),
   (computeLayout_pan_noop 100 150 ⟨100, 150⟩ 100 50 (-70) 0 25).2
      (by norm_num [computeLayout])⟩

/-- Claim C5: if after the bounded 5000ms wait the background or the frame
image still reports a zero dimension, `processImages` fails with one of
the two descriptive readiness errors and produces no output raster. -/
theorem processImages_readiness_error (cw ch : ℚ) (st : ComposerState) (ft bg : Img)
    (hbg : st.backgroundImage = some bg)
    (hzero : (bg.width = 0 ∨ bg.height = 0)
      ∨ ∃ tg, st.targetImage = some tg ∧ (tg.width = 0 ∨ tg.height = 0)) :
    processImages cw ch st ft =
        .error "Frame image failed to load. Please wait a moment and try again, or refresh the page."
    ∨ processImages cw ch st ft =
        .error "Background image failed to load. Please capture the photo again." := by
  rcases hzero with hbg0 | ⟨tg, htg, htg0⟩
  · cases hT : waitForImageLoad (some (st.targetImage.getD ft)) 5000 with
    | false =>
      left
      simp [processImages, hbg, hT]
    | true =>
      right
      have hB : waitForImageLoad (some bg) 5000 = false := by
        rcases hbg0 with h0 | h0 <;> simp [waitForImageLoad, h0]
      simp [processImages, hbg, hT, hB]
  · left
    have hT : waitForImageLoad (some (st.targetImage.getD ft)) 5000 = false := by
      rw [htg]
      rcases htg0 with h0 | h0 <;> simp [waitForImageLoad, h0]
    simp [processImages, hbg, hT]

/-- Witness for C5: a background reporting 0x100 after the wait makes the
compose fail with a readiness error. -/
theorem processImages_readiness_error_witness :
    processImages 1200 1800
        { targetImage := some ⟨10, 10⟩, backgroundImage := some ⟨0, 100⟩,
          zoomLevel := 100, xPosition := 0, yPosition := 0 } ⟨1, 1⟩ =
        .error "Frame image failed to load. Please wait a moment and try again, or refresh the page."
    ∨ processImages 1200 1800
        { targetImage := some ⟨10, 10⟩, backgroundImage := some ⟨0, 100⟩,
          zoomLevel := 100, xPosition := 0, yPosition := 0 } ⟨1, 1⟩ =
        .error "Background image failed to load. Please capture the photo again." :=
  processImages_readiness_error 1200 1800
    { targetImage := some ⟨10, 10⟩, backgroundImage := some ⟨0, 100⟩,
      zoomLevel := 100, xPosition := 0, yPosition := 0 } ⟨1, 1⟩ ⟨0, 100⟩
    rfl (Or.inl (Or.inl rfl))

/-- Claim C6: with no background image set, `processImages` fails with the
missing-background precondition error and returns no output raster. -/
theorem processImages_missing_background (cw ch : ℚ) (st : ComposerState) (ft : Img)
    (h : st.backgroundImage = none) :
    processImages cw ch st ft =
      .error "Missing background image. Please capture a photo first." := by
  simp [processImages, h]

/-- Witness for C6: the freshly constructed composer state. -/
theorem processImages_missing_background_witness :
    processImages 1200 1800
        { targetImage := none, backgroundImage := none,
          zoomLevel := 100, xPosition := 0, yPosition := 0 } ⟨1, 1⟩ =
      .error "Missing background image. Please capture a photo first." :=
  processImages_missing_background 1200 1800
    { targetImage := none, backgroundImage := none,
      zoomLevel := 100, xPosition := 0, yPosition := 0 } ⟨1, 1⟩ rfl

/-- Claim C7: `reset()` clears the background, restores the transform
defaults (zoom 100, positions 0), and leaves the frame/target image
exactly as it was. -/
theorem reset_spec (st : ComposerState) :
    (reset st).backgroundImage = none
    ∧ (reset st).zoomLevel = 100
    ∧ (reset st).xPosition = 0
    ∧ (reset st).yPosition = 0
    ∧ (reset st).targetImage = st.targetImage :=
  ⟨rfl, rfl, rfl, rfl, rfl⟩

/-! ### Gallery save path (`saveImage` of data-manager.js) -/

/-- The decimal digit character for `n < 10`, as JS `String(n)` produces. -/
def digitChar (n : Nat) : Char := Char.ofNat (48 + n)

/-- The decimal rendering of a natural number, as JS `String(n)`. -/
def natDigits (n : Nat) : List Char :=
  if _h : n < 10 then [digitChar n]
  else natDigits (n / 10) ++ [digitChar (n % 10)]
decreasing_by
  exact Nat.div_lt_self (by omega) (by omega)

def natToStr (n : Nat) : String := String.mk (natDigits n)

/-- JS `String(n).padStart(2, '0')`. -/
def pad2 (n : Nat) : String := if n < 10 then "0" ++ natToStr n else natToStr n

/-- The local-time components `saveImage` reads off `new Date()`
(`month` is already the 1-based `getMonth() + 1`). -/
structure DateParts where
  year : Nat
  month : Nat
  day : Nat
  hour : Nat
  minute : Nat
  second : Nat
  deriving DecidableEq, Repr

/-- The `timestamp` string of data-manager.js lines 47-52. -/
def timestampOf (d : DateParts) : String :=
  natToStr d.year ++ pad2 d.month ++ pad2 d.day ++ "_"
    ++ pad2 d.hour ++ pad2 d.minute ++ pad2 d.second

/-- The filename of line 54: `magik-events-hq-${timestamp}.png`. -/
def filenameOf (d : DateParts) : String :=
  "magik-events-hq-" ++ timestampOf d ++ ".png"

/-- `Math.round((imageDataUrl.length * 3) / 4)` of line 57,
computed exactly over `Nat` (round half up on quarters). -/
def imageSize (dataUrl : String) : Nat := (dataUrl.length * 3 + 2) / 4

/-- JS `Math.round`: round half toward positive infinity. -/
def jsRound (q : ℚ) : ℤ := ⌊q + 1 / 2⌋

/-- JS `x.toFixed(2)` for non-negative `x`, over exact rationals. -/
def toFixed2 (q : ℚ) : String :=
  let n := (⌊q * 100 + 1 / 2⌋).toNat
  natToStr (n / 100) ++ "." ++ pad2 (n % 100)

/-- `(imageSize / (1024 * 1024)).toFixed(2)` of line 58. -/
def sizeMBOf (size : Nat) : String := toFixed2 ((size : ℚ) / (1024 * 1024))

/-- The caller-supplied metadata (app-controller.js passes
`{resolution, settings}`); an absent field is `none`. -/
structure Metadata where
  resolution : Option String
  settings : Option Settings
  deriving DecidableEq, Repr

/-- A record of the `magik-events-images` collection as assembled by
`saveImage` (data-manager.js lines 61-72).  `settings = none` stands for
the JS empty object `{}`. -/
structure SavedImage where
  filename : String
  imageData : String
  uploadedAt : Nat
  size : Nat
  sizeMB : String
  type : String
  quality : String
  resolution : String
  settings : Option Settings
  deriving DecidableEq, Repr

/-- `saveImage` of data-manager.js (lines 37-85): the record pushed for
raster `imageDataUrl` with caller metadata, wall clock `now` and server
timestamp `ts`.  The literal fields `resolution: metadata.resolution ||
'1200x1800'` and `settings: metadata.settings || {}` are spread-overridden
by `...metadata` when the caller supplied them, which collapses to the
`Option.getD` below resp. to `metadata.settings` itself. -/
def saveImage (imageDataUrl : String) (metadata : Metadata) (now : DateParts)
    (ts : Nat) : SavedImage :=
  { filename := filenameOf now
    imageData := imageDataUrl
    uploadedAt := ts
    size := imageSize imageDataUrl
    sizeMB := sizeMBOf (imageSize imageDataUrl)
    type := "image/png"
    quality := "high"
    resolution := metadata.resolution.getD "1200x1800"
    settings := metadata.settings }

/-- `s` matches `magik-events-hq-YYYYMMDD_HHMMSS.png`: the fixed prefix,
8 digits, an underscore, 6 digits, and the fixed suffix. -/
def isFilenameTimestamped (s : String) : Prop :=
  ∃ d8 d6 : List Char,
    s.data = "magik-events-hq-".data ++ d8 ++ ('_' :: d6) ++ ".png".data
    ∧ d8.length = 8 ∧ d6.length = 6
    ∧ (∀ c ∈ d8, c.isDigit) ∧ (∀ c ∈ d6, c.isDigit)

/-! ### Digit-string lemmas -/

theorem strData_append (a b : String) : (a ++ b).data = a.data ++ b.data := rfl

theorem digitChar_isDigit : ∀ k, k < 10 → (digitChar k).isDigit = true := by decide

theorem natDigits_all_digit (n : Nat) : ∀ c ∈ natDigits n, c.isDigit = true := by
  induction n using Nat.strong_induction_on with
  | _ n ih =>
    rw [natDigits]
    by_cases h : n < 10
    · simp only [dif_pos h]
      intro c hc
      rw [List.mem_singleton.mp hc]
      exact digitChar_isDigit n h
    · simp only [dif_neg h]
      intro c hc
      rcases List.mem_append.mp hc with hc | hc
      · exact ih (n / 10) (Nat.div_lt_self (by omega) (by omega)) c hc
      · rw [List.mem_singleton.mp hc]
        exact digitChar_isDigit (n % 10) (Nat.mod_lt _ (by omega))

theorem natDigits_length_small (n : Nat) (h : n < 10) : (natDigits n).length = 1 := by
  rw [natDigits, dif_pos h]
  rfl

theorem natDigits_length_step (n : Nat) (h : 10 ≤ n) :
    (natDigits n).length = (natDigits (n / 10)).length + 1 := by
  rw [natDigits, dif_neg (by omega)]
  simp

theorem natDigits_length_four (n : Nat) (h1 : 1000 ≤ n) (h2 : n < 10000) :
    (natDigits n).length = 4 := by
  have d1a : 100 ≤ n / 10 := by omega
  have d1b : n / 10 < 1000 := by omega
  have d2a : 10 ≤ n / 10 / 10 := by omega
  have d2b : n / 10 / 10 < 100 := by omega
  have d3 : n / 10 / 10 / 10 < 10 := by omega
  rw [natDigits_length_step n (by omega), natDigits_length_step (n / 10) (by omega),
    natDigits_length_step (n / 10 / 10) (by omega),
    natDigits_length_small (n / 10 / 10 / 10) d3]

theorem pad2_length (n : Nat) (h : n < 100) : (pad2 n).data.length = 2 := by
  rw [pad2]
  by_cases h10 : n < 10
  · rw [if_pos h10, strData_append]
    simp [natToStr, natDigits_length_small n h10]
  · rw [if_neg h10]
    have : (natDigits n).length = 2 := by
      rw [natDigits_length_step n (by omega),
        natDigits_length_small (n / 10) (by omega)]
    simpa [natToStr] using this

theorem pad2_all_digit (n : Nat) : ∀ c ∈ (pad2 n).data, c.isDigit = true := by
  rw [pad2]
  by_cases h10 : n < 10
  · rw [if_pos h10, strData_append]
    intro c hc
    rcases List.mem_append.mp hc with hc | hc
    · rw [show ("0" : String).data = ['0'] from rfl] at hc
      rw [List.mem_singleton.mp hc]
      rfl
    · exact natDigits_all_digit n c hc
  · rw [if_neg h10]
    exact natDigits_all_digit n

/-! ### Claim C8 -/

/-- Claim C8: the record stored by `saveImage` has a filename matching
`magik-events-hq-YYYYMMDD_HHMMSS.png`, `size = round(length * 3 / 4)`,
`sizeMB` that size in MiB to 2 decimals, type `image/png`, quality `high`,
resolution defaulting to `1200x1800`, and the caller-supplied settings
snapshot — in particular zoom 120 / x 50 / y -30 is stored verbatim. -/
theorem saveImage_record_fields (imageDataUrl : String) (metadata : Metadata)
    (now : DateParts) (ts : Nat)
    (hy1 : 1000 ≤ now.year) (hy2 : now.year ≤ 9999)
    (hmo : now.month ≤ 12) (hda : now.day ≤ 31)
    (hho : now.hour ≤ 23) (hmi : now.minute ≤ 59) (hse : now.second ≤ 59) :
    isFilenameTimestamped (saveImage imageDataUrl metadata now ts).filename
    ∧ ((saveImage imageDataUrl metadata now ts).size : ℤ) =
        jsRound ((imageDataUrl.length : ℚ) * 3 / 4)
    ∧ (saveImage imageDataUrl metadata now ts).sizeMB =
        toFixed2 (((saveImage imageDataUrl metadata now ts).size : ℚ) / (1024 * 1024))
    ∧ (saveImage imageDataUrl metadata now ts).type = "image/png"
    ∧ (saveImage imageDataUrl metadata now ts).quality = "high"
    ∧ (metadata.resolution = none →
        (saveImage imageDataUrl metadata now ts).resolution = "1200x1800")
    ∧ (saveImage imageDataUrl metadata now ts).settings = metadata.settings
    ∧ (∀ st : ComposerState,
        st.zoomLevel = 120 → st.xPosition = 50 → st.yPosition = -30 →
        (saveImage imageDataUrl { metadata with settings := some (getSettings st) }
            now ts).settings
          = some { zoom := 120, xPosition := 50, yPosition := -30 }) := by
  refine ⟨?_, ?_, rfl, rfl, rfl, ?_, rfl, ?_⟩
  · refine ⟨natDigits now.year ++ (pad2 now.month).data ++ (pad2 now.day).data,
      (pad2 now.hour).data ++ (pad2 now.minute).data ++ (pad2 now.second).data,
      ?_, ?_, ?_, ?_, ?_⟩
    · show (filenameOf now).data = _
      rw [filenameOf, timestampOf]
      simp [strData_append, natToStr, List.append_assoc]
    · have ly := natDigits_length_four now.year hy1 (by omega)
      have lmo := pad2_length now.month (by omega)
      have lda := pad2_length now.day (by omega)
      simp [ly, lmo, lda]
    · have lho := pad2_length now.hour (by omega)
      have lmi := pad2_length now.minute (by omega)
      have lse := pad2_length now.second (by omega)
      simp [lho, lmi, lse]
    · intro c hc
      rcases List.mem_append.mp hc with hc | hc
      · rcases List.mem_append.mp hc with hc | hc
        · exact natDigits_all_digit now.year c hc
        · exact pad2_all_digit now.month c hc
      · exact pad2_all_digit now.day c hc
    · intro c hc
      rcases List.mem_append.mp hc with hc | hc
      · rcases List.mem_append.mp hc with hc | hc
        · exact pad2_all_digit now.hour c hc
        · exact pad2_all_digit now.minute c hc
      · exact pad2_all_digit now.second c hc
  · rw [jsRound]
    have h2 : (imageDataUrl.length : ℚ) * 3 / 4 + 1 / 2 =
        ((imageDataUrl.length * 3 + 2 : ℕ) : ℚ) / ((4 : ℕ) : ℚ) := by
      push_cast
      ring
    rw [h2, Rat.floor_natCast_div_natCast]
    show ((imageSize imageDataUrl : ℕ) : ℤ) = _
    rw [imageSize]
    exact_mod_cast rfl
  · intro h
    show (metadata.resolution.getD "1200x1800") = "1200x1800"
    rw [h]
    rfl
  · intro st h1 h2 h3
    show some (getSettings st) = _
    rw [getSettings, h1, h2, h3]

/-- Witness for C8: a concrete save on 2024-03-07 14:05:09 with settings
zoom 120 / x 50 / y -30 and no caller resolution. -/
theorem saveImage_record_fields_witness :
    isFilenameTimestamped
      (saveImage "data:image/png;base64,AAAA"
        { resolution := none,
          settings := some { zoom := 120, xPosition := 50, yPosition := -30 } }
        ⟨2024, 3, 7, 14, 5, 9⟩ 1).filename
    ∧ (saveImage "data:image/png;base64,AAAA"
        { resolution := none,
          settings := some { zoom := 120, xPosition := 50, yPosition := -30 } }
        ⟨2024, 3, 7, 14, 5, 9⟩ 1).settings
        = some { zoom := 120, xPosition := 50, yPosition := -30 }
    ∧ (saveImage "data:image/png;base64,AAAA"
        { resolution := none,
          settings := some { zoom := 120, xPosition := 50, yPosition := -30 } }
        ⟨2024, 3, 7, 14, 5, 9⟩ 1).resolution = "1200x1800" := by
  have h := saveImage_record_fields "data:image/png;base64,AAAA"
    { resolution := none,
      settings := some { zoom := 120, xPosition := 50, yPosition := -30 } }
    ⟨2024, 3, 7, 14, 5, 9⟩ 1
    (by decide) (by decide) (by decide) (by decide) (by decide) (by decide) (by decide)
  exact ⟨h.1, h.2.2.2.2.2.2.1, h.2.2.2.2.2.1 rfl⟩

/-! ### Gallery listing (`loadImages` of data-manager.js) -/

/-- The sort comparator of data-manager.js lines 115-120: when both
records have a truthy (non-zero) `uploadedAt` compare
`b.uploadedAt - a.uploadedAt`, otherwise report 0 (keep order). -/
def imagesCmp (a b : String × SavedImage) : Int :=
  if a.2.uploadedAt ≠ 0 ∧ b.2.uploadedAt ≠ 0 then
    (b.2.uploadedAt : Int) - (a.2.uploadedAt : Int)
  else 0

/-- `a` may stay before `b` under the comparator (`cmp(a, b) <= 0`). -/
def jsSortLe (a b : String × SavedImage) : Bool := decide (imagesCmp a b ≤ 0)

/-- Insert into a sorted list, keeping `x` before the first element it
compares `<= 0` against (a stable sort, as ECMAScript requires of
`Array.prototype.sort`; the algorithm itself is unspecified there, any
comparator-respecting stable sort is a faithful model). -/
def insertSorted (le : α → α → Bool) (x : α) : List α → List α
  | [] => [x]
  | y :: ys => if le x y then x :: y :: ys else y :: insertSorted le x ys

def insertionSort (le : α → α → Bool) : List α → List α
  | [] => []
  | x :: xs => insertSorted le x (insertionSort le xs)

/-- `loadImages` of data-manager.js (lines 92-133): the list passed to the
callback for one snapshot — one `{id: key, ...record}` entry per stored
record in key order (modelled as the key/record pair itself), sorted with
the comparator above; an absent snapshot yields the empty list. -/
def loadImagesValue (data : List (String × SavedImage)) : List (String × SavedImage) :=
  if data.isEmpty then [] else insertionSort jsSortLe data

theorem insertSorted_perm (le : α → α → Bool) (x : α) (l : List α) :
    (insertSorted le x l).Perm (x :: l) := by
  induction l with
  | nil => exact List.Perm.refl _
  | cons y ys ih =>
    rw [insertSorted]
    by_cases h : le x y = true
    · rw [if_pos h]
    · rw [if_neg h]
      exact (ih.cons y).trans (List.Perm.swap x y ys)

theorem insertionSort_perm (le : α → α → Bool) (l : List α) :
    (insertionSort le l).Perm l := by
  induction l with
  | nil => exact List.Perm.refl _
  | cons x xs ih =>
    exact (insertSorted_perm le x (insertionSort le xs)).trans (ih.cons x)

theorem jsSortLe_truthy (a b : String × SavedImage)
    (ha : a.2.uploadedAt ≠ 0) (hb : b.2.uploadedAt ≠ 0) :
    jsSortLe a b = true ↔ b.2.uploadedAt ≤ a.2.uploadedAt := by
  rw [jsSortLe, imagesCmp, if_pos ⟨ha, hb⟩]
  simp

theorem insertSorted_pairwise (x : String × SavedImage) (l : List (String × SavedImage))
    (hx : x.2.uploadedAt ≠ 0) (hl : ∀ p ∈ l, p.2.uploadedAt ≠ 0)
    (hp : l.Pairwise (fun a b => b.2.uploadedAt ≤ a.2.uploadedAt)) :
    (insertSorted jsSortLe x l).Pairwise
      (fun a b => b.2.uploadedAt ≤ a.2.uploadedAt) := by
  induction l with
  | nil => simp [insertSorted]
  | cons y ys ih =>
    rw [insertSorted]
    have hy : y.2.uploadedAt ≠ 0 := hl y (List.mem_cons_self _ _)
    by_cases h : jsSortLe x y = true
    · rw [if_pos h]
      have hxy : y.2.uploadedAt ≤ x.2.uploadedAt := (jsSortLe_truthy x y hx hy).mp h
      refine List.Pairwise.cons ?_ hp
      intro z hz
      rcases List.mem_cons.mp hz with rfl | hz
      · exact hxy
      · exact le_trans (List.rel_of_pairwise_cons hp hz) hxy
    · rw [if_neg h]
      have hyx : x.2.uploadedAt ≤ y.2.uploadedAt := by
        have := (not_iff_not.mpr (jsSortLe_truthy x y hx hy)).mp h
        omega
      refine List.Pairwise.cons ?_
        (ih (fun p hp => hl p (List.mem_cons_of_mem _ hp)) hp.of_cons)
      intro z hz
      have hz2 : z ∈ x :: ys := (insertSorted_perm jsSortLe x ys).mem_iff.mp hz
      rcases List.mem_cons.mp hz2 with rfl | hz2
      · exact hyx
      · exact List.rel_of_pairwise_cons hp hz2

theorem insertionSort_pairwise (l : List (String × SavedImage))
    (hl : ∀ p ∈ l, p.2.uploadedAt ≠ 0) :
    (insertionSort jsSortLe l).Pairwise
      (fun a b => b.2.uploadedAt ≤ a.2.uploadedAt) := by
  induction l with
  | nil => simp [insertionSort]
  | cons x xs ih =>
    rw [insertionSort]
    refine insertSorted_pairwise x (insertionSort jsSortLe xs)
      (hl x (List.mem_cons_self _ _)) ?_
      (ih (fun p hp => hl p (List.mem_cons_of_mem _ hp)))
    intro p hp
    exact hl p (List.mem_cons_of_mem _ ((insertionSort_perm jsSortLe xs).mem_iff.mp hp))

/-- Claim C9: for every snapshot, the list handed to the `loadImages`
callback has exactly one entry per stored record, each carrying its record
id (a permutation of the key/record pairs); and whenever every record has
a truthy `uploadedAt` the list is sorted by `uploadedAt` descending. -/
theorem loadImages_entries_sorted (data : List (String × SavedImage)) :
    (loadImagesValue data).Perm data
    ∧ ((∀ p ∈ data, p.2.uploadedAt ≠ 0) →
        (loadImagesValue data).Pairwise
          (fun a b => b.2.uploadedAt ≤ a.2.uploadedAt)) := by
  constructor
  · rw [loadImagesValue]
    by_cases h : data.isEmpty = true
    · rw [if_pos h]
      rw [List.isEmpty_iff.mp h]
    · rw [if_neg h]
      exact insertionSort_perm jsSortLe data
  · intro hl
    rw [loadImagesValue]
    by_cases h : data.isEmpty = true
    · rw [if_pos h]
      simp
    · rw [if_neg h]
      exact insertionSort_pairwise data hl

/-- Witness for C9: a two-record snapshot with truthy timestamps 1 and 5
is delivered as a permutation of itself sorted descending. -/
theorem loadImages_entries_sorted_witness :
    (loadImagesValue
        [("a", (⟨"f1", "d1", 1, 10, "0.00", "image/png", "high", "1200x1800", none⟩ :
            SavedImage)),
         ("b", (⟨"f2", "d2", 5, 10, "0.00", "image/png", "high", "1200x1800", none⟩ :
            SavedImage))]).Perm
      [("a", (⟨"f1", "d1", 1, 10, "0.00", "image/png", "high", "1200x1800", none⟩ :
          SavedImage)),
       ("b", (⟨"f2", "d2", 5, 10, "0.00", "image/png", "high", "1200x1800", none⟩ :
          SavedImage))]
    ∧ (loadImagesValue
        [("a", (⟨"f1", "d1", 1, 10, "0.00", "image/png", "high", "1200x1800", none⟩ :
            SavedImage)),
         ("b", (⟨"f2", "d2", 5, 10, "0.00", "image/png", "high", "1200x1800", none⟩ :
            SavedImage))]).Pairwise
        (fun a b => b.2.uploadedAt ≤ a.2.uploadedAt) := by
  have h := loadImages_entries_sorted
    [("a", (⟨"f1", "d1", 1, 10, "0.00", "image/png", "high", "1200x1800", none⟩ :
        SavedImage)),
     ("b", (⟨"f2", "d2", 5, 10, "0.00", "image/png", "high", "1200x1800", none⟩ :
        SavedImage))]
  exact ⟨h.1, h.2 (by decide)⟩
